import Mathlib

/-!
Shallow embedding of the order/inventory consistency core of the
logistics-saas repository.

Inventory handlers are embedded from `src/unnamed/part_008`
(createInventory, getLowStockItems, getLowStockItemsCount,
reserveInventory, releaseInventory); order handlers from
`src/server/src/handlers/orders.ts` (addOrderItem, removeOrderItem,
calculateOrderTotal, deleteOrder, getOrderById, getOrderItems); table
shapes from the drizzle schema in `src/unnamed/part_002`.

The relational store is modelled as lists of rows.  `db.select().where(p)`
is `List.filter`; the handlers' `result[0]` access is a `match` on the
filtered list; `db.update().where(p).set(...)` is a `List.map` that
rewrites matching rows; `db.delete().where(p)` is a `List.filter` keeping
the non-matching rows.  `serial` primary keys are modelled by a counter
carried in the state (the database assigns the next id on insert).
Timestamps (`last_updated`, `updated_at`) are an abstract clock value
`now : Nat` supplied to each mutating call.  `numeric` money columns and
their JavaScript images are modelled as exact rationals `Rat`; integer
columns as `Int`.  A thrown error is `Except.error` with a constructor per
distinct throw site; a handler that throws leaves the store unchanged.
-/

namespace LogisticsCore

instance {ε α : Type} [DecidableEq ε] [DecidableEq α] :
    DecidableEq (Except ε α) := fun a b =>
  match a, b with
  | .error e, .error f =>
    if h : e = f then .isTrue (by rw [h]) else
      .isFalse (fun c => h (Except.error.injEq .. ▸ c))
  | .error _, .ok _ => .isFalse (fun c => Except.noConfusion c)
  | .ok _, .error _ => .isFalse (fun c => Except.noConfusion c)
  | .ok x, .ok y =>
    if h : x = y then .isTrue (by rw [h]) else
      .isFalse (fun c => h (Except.ok.injEq .. ▸ c))

/-- A row of `inventoryTable` (`src/unnamed/part_002`, lines 39-48):
serial id, client_id, product_id, integer quantity and reserved_quantity
(both defaulting to 0), and the last_updated timestamp. -/
structure InventoryRow where
  id : Nat
  client_id : Nat
  product_id : Nat
  quantity : Int
  reserved_quantity : Int
  last_updated : Nat
  deriving DecidableEq, Repr

/-- Errors thrown by the inventory handlers in `src/unnamed/part_008`:
`notFound` for every "... not found" throw, `insufficient` for
"Insufficient inventory available for reservation", `cannotRelease` for
"Cannot release more inventory than is reserved". -/
inductive InvErr where
  | notFound
  | insufficient
  | cannotRelease
  deriving DecidableEq, Repr

/-- The `where(and(eq(product_id, productId), eq(client_id, clientId)))`
predicate used by reserveInventory and releaseInventory. -/
def invMatch (productId clientId : Nat) (r : InventoryRow) : Bool :=
  r.product_id == productId && r.client_id == clientId

/-- `reserveInventory` (`src/unnamed/part_008`, lines 175-207): find the
inventory rows for (productId, clientId); throw if none; compute
`available = quantity - reserved_quantity` of the first row and throw if
`available < quantity` requested; otherwise set the matched row's
reserved_quantity to the read value plus the requested quantity and
refresh last_updated. -/
def reserveInventory (productId clientId : Nat) (quantity : Int) (now : Nat)
    (db : List InventoryRow) : Except InvErr (List InventoryRow) :=
  match db.filter (invMatch productId clientId) with
  | [] => .error .notFound
  | r :: _ =>
    if r.quantity - r.reserved_quantity < quantity then
      .error .insufficient
    else
      .ok (db.map (fun s =>
        if s.id == r.id then
          { s with reserved_quantity := r.reserved_quantity + quantity,
                   last_updated := now }
        else s))

/-- `releaseInventory` (`src/unnamed/part_008`, lines 209-241): find the
inventory rows for (productId, clientId); throw if none; throw if
`reserved_quantity < quantity` requested; otherwise decrement both
quantity and reserved_quantity of the matched row by the requested
quantity and refresh last_updated. -/
def releaseInventory (productId clientId : Nat) (quantity : Int) (now : Nat)
    (db : List InventoryRow) : Except InvErr (List InventoryRow) :=
  match db.filter (invMatch productId clientId) with
  | [] => .error .notFound
  | r :: _ =>
    if r.reserved_quantity < quantity then
      .error .cannotRelease
    else
      .ok (db.map (fun s =>
        if s.id == r.id then
          { s with quantity := r.quantity - quantity,
                   reserved_quantity := r.reserved_quantity - quantity,
                   last_updated := now }
        else s))

/-- `getLowStockItems` (`src/unnamed/part_008`, lines 139-154): rows of
the given client with `quantity <= threshold`.  Note the filter is on the
stored quantity column, not on quantity minus reserved_quantity. -/
def getLowStockItems (clientId : Nat) (threshold : Int)
    (db : List InventoryRow) : List InventoryRow :=
  db.filter (fun r => r.client_id == clientId && r.quantity ≤ threshold)

/-- The TypeScript default parameter `threshold: number = 10`: the tRPC
route passes `input.threshold`, which may be undefined. -/
def getLowStockItemsRoute (clientId : Nat) (threshold : Option Int)
    (db : List InventoryRow) : List InventoryRow :=
  getLowStockItems clientId (threshold.getD 10) db

/-- `getLowStockItemsCount` (`src/unnamed/part_008`, lines 156-173):
`count(*)` over rows of the client with
`quantity - reserved_quantity <= threshold`. -/
def getLowStockItemsCount (clientId : Nat) (threshold : Int)
    (db : List InventoryRow) : Nat :=
  (db.filter (fun r =>
    r.client_id == clientId && r.quantity - r.reserved_quantity ≤ threshold)).length

/-- `userRoleEnum` from the schema. -/
inductive Role where
  | admin
  | client
  deriving DecidableEq, Repr

/-- The fields of `usersTable` that the inventory handlers read. -/
structure User where
  id : Nat
  role : Role
  deriving DecidableEq, Repr

/-- The field of `productsTable` that the handlers read. -/
structure Product where
  id : Nat
  deriving DecidableEq, Repr

/-- `CreateInventoryInput` as consumed by createInventory. -/
structure CreateInventoryInput where
  client_id : Nat
  product_id : Nat
  quantity : Int
  deriving DecidableEq, Repr

/-- `createInventory` (`src/unnamed/part_008`, lines 6-43): throw unless
some user has the given id with role client; throw unless some product
has the given id; insert a row whose reserved_quantity takes the schema
default 0 (`src/unnamed/part_002`, line 44), with the serial id assigned
by the database.  Returns the inserted row and the new table. -/
def createInventory (input : CreateInventoryInput) (users : List User)
    (products : List Product) (nextId now : Nat) (db : List InventoryRow) :
    Except InvErr (InventoryRow × List InventoryRow) :=
  if (users.filter (fun u => u.id == input.client_id && u.role == Role.client)).isEmpty then
    .error .notFound
  else if (products.filter (fun p => p.id == input.product_id)).isEmpty then
    .error .notFound
  else
    let row : InventoryRow :=
      { id := nextId
        client_id := input.client_id
        product_id := input.product_id
        quantity := input.quantity
        reserved_quantity := 0
        last_updated := now }
    .ok (row, db ++ [row])

/-- The stock invariant from the spec: `0 ≤ reserved_quantity ≤ quantity`
for every ledger row. -/
def InvInvariant (db : List InventoryRow) : Prop :=
  ∀ r ∈ db, 0 ≤ r.reserved_quantity ∧ r.reserved_quantity ≤ r.quantity

instance : DecidablePred InvInvariant := fun db =>
  List.decidableBAll _ db

/-- One call against the inventory ledger: a Reserve or a Release. -/
inductive InvOp where
  | reserve (productId clientId : Nat) (quantity : Int) (now : Nat)
  | release (productId clientId : Nat) (quantity : Int) (now : Nat)
  deriving DecidableEq, Repr

/-- The requested quantity of an inventory call. -/
def InvOp.qty : InvOp → Int
  | .reserve _ _ q _ => q
  | .release _ _ q _ => q

/-- Execute one call; a thrown error leaves the table unchanged (the
handlers write nothing before throwing). -/
def applyInvOp (db : List InventoryRow) : InvOp → List InventoryRow
  | .reserve pid cid q now =>
    match reserveInventory pid cid q now db with
    | .ok db' => db'
    | .error _ => db
  | .release pid cid q now =>
    match releaseInventory pid cid q now db with
    | .ok db' => db'
    | .error _ => db

/-- Execute a sequence of Reserve/Release calls. -/
def runInvOps (ops : List InvOp) (db : List InventoryRow) : List InventoryRow :=
  ops.foldl applyInvOp db

/-- A row of `ordersTable` as the order handlers use it: serial id,
client_id, the numeric total_amount, and updated_at.  The remaining
columns (order_number, status, addresses, notes) are never read or
conditioned on by the embedded operations and are omitted. -/
structure Order where
  id : Nat
  client_id : Nat
  total_amount : Rat
  updated_at : Nat
  deriving DecidableEq, Repr

/-- A row of `orderItemsTable`: serial id, order_id, product_id, integer
quantity, numeric unit_price and total_price. -/
structure OrderItem where
  id : Nat
  order_id : Nat
  product_id : Nat
  quantity : Int
  unit_price : Rat
  total_price : Rat
  deriving DecidableEq, Repr

/-- Errors thrown by the order handlers in
`src/server/src/handlers/orders.ts`: one constructor per distinct
"... not found" throw site. -/
inductive OrdErr where
  | orderNotFound
  | productNotFound
  | itemNotFound
  deriving DecidableEq, Repr

/-- The orders and order_items tables, with the next serial id the
database would assign to an inserted order item. -/
structure OrdersDb where
  orders : List Order
  items : List OrderItem
  nextItemId : Nat
  deriving DecidableEq, Repr

/-- `CreateOrderItemInput` as consumed by addOrderItem. -/
structure CreateOrderItemInput where
  order_id : Nat
  product_id : Nat
  quantity : Int
  unit_price : Rat
  deriving DecidableEq, Repr

/-- The OrderItem rows of one order:
`select().from(orderItemsTable).where(eq(order_id, orderId))`. -/
def itemsFor (orderId : Nat) (items : List OrderItem) : List OrderItem :=
  items.filter (fun it => it.order_id == orderId)

/-- `COALESCE(SUM(total_price), 0)` over the items of one order: the sum
of an empty list of rationals is 0. -/
def orderTotal (orderId : Nat) (items : List OrderItem) : Rat :=
  ((itemsFor orderId items).map (fun it => it.total_price)).sum

/-- `calculateOrderTotal` (`orders.ts`, lines 259-285): sum total_price
over the order's items (0 when there are none), write it into the
order's total_amount, refresh updated_at, return the total.  The update
touches only rows with the given id; if no order row matches, the update
writes nothing. -/
def calculateOrderTotal (orderId : Nat) (now : Nat) (s : OrdersDb) :
    Rat × OrdersDb :=
  let total := orderTotal orderId s.items
  (total,
    { s with orders := s.orders.map (fun o =>
        if o.id == orderId then
          { o with total_amount := total, updated_at := now }
        else o) })

/-- `addOrderItem` (`orders.ts`, lines 163-212): throw if the order id is
absent, throw if the product id is absent; insert an item with
`total_price = quantity * unit_price` and the serial id assigned by the
database, then run calculateOrderTotal on the order.  Returns the created
item and the new state. -/
def addOrderItem (input : CreateOrderItemInput) (products : List Product)
    (now : Nat) (s : OrdersDb) : Except OrdErr (OrderItem × OrdersDb) :=
  if (s.orders.filter (fun o => o.id == input.order_id)).isEmpty then
    .error .orderNotFound
  else if (products.filter (fun p => p.id == input.product_id)).isEmpty then
    .error .productNotFound
  else
    let item : OrderItem :=
      { id := s.nextItemId
        order_id := input.order_id
        product_id := input.product_id
        quantity := input.quantity
        unit_price := input.unit_price
        total_price := (input.quantity : Rat) * input.unit_price }
    let s1 : OrdersDb :=
      { s with items := s.items ++ [item], nextItemId := s.nextItemId + 1 }
    .ok (item, (calculateOrderTotal input.order_id now s1).2)

/-- `removeOrderItem` (`orders.ts`, lines 232-257): look the item up by
id and throw if absent; delete the rows with that id; run
calculateOrderTotal on the found item's order_id. -/
def removeOrderItem (itemId : Nat) (now : Nat) (s : OrdersDb) :
    Except OrdErr OrdersDb :=
  match s.items.filter (fun it => it.id == itemId) with
  | [] => .error .itemNotFound
  | it :: _ =>
    let s1 : OrdersDb :=
      { s with items := s.items.filter (fun x => !(x.id == itemId)) }
    .ok (calculateOrderTotal it.order_id now s1).2

/-- `deleteOrder` (`orders.ts`, lines 136-161): throw if the order id is
absent; delete the order's items first, then the order row(s). -/
def deleteOrder (orderId : Nat) (s : OrdersDb) : Except OrdErr OrdersDb :=
  if (s.orders.filter (fun o => o.id == orderId)).isEmpty then
    .error .orderNotFound
  else
    .ok { s with
          orders := s.orders.filter (fun o => !(o.id == orderId)),
          items := s.items.filter (fun it => !(it.order_id == orderId)) }

/-- `getOrderById` (`orders.ts`, lines 78-98): first row with the id, or
a thrown "Order not found". -/
def getOrderById (orderId : Nat) (s : OrdersDb) : Except OrdErr Order :=
  match s.orders.filter (fun o => o.id == orderId) with
  | [] => .error .orderNotFound
  | o :: _ => .ok o

/-- `getOrderItems` (`orders.ts`, lines 214-230): all item rows of the
order. -/
def getOrderItems (orderId : Nat) (s : OrdersDb) : List OrderItem :=
  itemsFor orderId s.items

/-- One call against the order tables: an item addition, an item removal,
or a direct total recomputation. -/
inductive OrderOp where
  | add (input : CreateOrderItemInput) (now : Nat)
  | remove (itemId : Nat) (now : Nat)
  | recompute (orderId : Nat) (now : Nat)
  deriving DecidableEq, Repr

/-- Execute one call; a thrown error leaves the tables unchanged. -/
def applyOrderOp (products : List Product) (s : OrdersDb) :
    OrderOp → OrdersDb
  | .add input now =>
    match addOrderItem input products now s with
    | .ok (_, s') => s'
    | .error _ => s
  | .remove itemId now =>
    match removeOrderItem itemId now s with
    | .ok s' => s'
    | .error _ => s
  | .recompute orderId now => (calculateOrderTotal orderId now s).2

/-- Execute a sequence of item/total calls. -/
def runOrderOps (products : List Product) (ops : List OrderOp)
    (s : OrdersDb) : OrdersDb :=
  ops.foldl (applyOrderOp products) s

/-- The derived-total invariant from the spec: every order's total_amount
equals the sum of total_price over its OrderItem rows. -/
def TotalsOk (s : OrdersDb) : Prop :=
  ∀ o ∈ s.orders, o.total_amount = orderTotal o.id s.items

instance : DecidablePred TotalsOk := fun s =>
  List.decidableBAll _ s.orders

/-- Well-formedness of the serial item ids: pairwise distinct and below
the database's next id.  This is what a `serial` primary key guarantees. -/
def ItemIdsOk (s : OrdersDb) : Prop :=
  (s.items.map (fun it => it.id)).Nodup ∧ ∀ it ∈ s.items, it.id < s.nextItemId

instance : DecidablePred ItemIdsOk := fun s => by
  unfold ItemIdsOk
  infer_instance

/-- An order stripped of its updated_at timestamp, for stating that a
recomputation changes nothing else. -/
def Order.data (o : Order) : Nat × Nat × Rat :=
  (o.id, o.client_id, o.total_amount)

/-- The item row inserted by addOrderItem for a given input and state:
`total_price = quantity * unit_price`, id assigned by the database. -/
def newItem (input : CreateOrderItemInput) (s : OrdersDb) : OrderItem :=
  { id := s.nextItemId
    order_id := input.order_id
    product_id := input.product_id
    quantity := input.quantity
    unit_price := input.unit_price
    total_price := (input.quantity : Rat) * input.unit_price }

/-! ### General list lemmas -/

lemma zip_self_map {α β : Type} (l : List α) (f : α → β) :
    l.zip (l.map f) = l.map (fun x => (x, f x)) := by
  simpa using List.zip_map' (@id α) f l

lemma map_id_of_fixed {α β : Type} {l : List α} {f : α → α} (g : α → β)
    (h : ∀ x ∈ l, g (f x) = g x) : (l.map f).map g = l.map g := by
  induction l with
  | nil => rfl
  | cons a l ih =>
    simp only [List.map_cons, List.cons.injEq]
    exact ⟨h a (by simp), ih (fun x hx => h x (by simp [hx]))⟩

/-! ### Inventory ledger lemmas -/

/-- The head of the filtered list used by reserve/release is a row of the
table matching the pair. -/
lemma filter_head_mem {pid cid : Nat} {db : List InventoryRow}
    {r : InventoryRow} {rest : List InventoryRow}
    (h : db.filter (invMatch pid cid) = r :: rest) : r ∈ db := by
  have : r ∈ db.filter (invMatch pid cid) := by rw [h]; simp
  exact (List.mem_filter.mp this).1

/-- A successful reserveInventory call: some row matched, its available
stock covered the request, and the new table is the update map. -/
lemma reserve_ok {pid cid : Nat} {q : Int} {now : Nat}
    {db db' : List InventoryRow}
    (h : reserveInventory pid cid q now db = .ok db') :
    ∃ r rest, db.filter (invMatch pid cid) = r :: rest ∧
      q ≤ r.quantity - r.reserved_quantity ∧
      db' = db.map (fun s =>
        if s.id == r.id then
          { s with reserved_quantity := r.reserved_quantity + q,
                   last_updated := now }
        else s) := by
  unfold reserveInventory at h
  split at h
  · exact absurd h (by simp)
  · rename_i r rest heq
    split at h
    · exact absurd h (by simp)
    · rename_i hins
      exact ⟨r, rest, heq, by omega, ((Except.ok.injEq ..).mp h).symm⟩

/-- A successful releaseInventory call: some row matched, its reserved
stock covered the request, and the new table is the update map. -/
lemma release_ok {pid cid : Nat} {q : Int} {now : Nat}
    {db db' : List InventoryRow}
    (h : releaseInventory pid cid q now db = .ok db') :
    ∃ r rest, db.filter (invMatch pid cid) = r :: rest ∧
      q ≤ r.reserved_quantity ∧
      db' = db.map (fun s =>
        if s.id == r.id then
          { s with quantity := r.quantity - q,
                   reserved_quantity := r.reserved_quantity - q,
                   last_updated := now }
        else s) := by
  unfold releaseInventory at h
  split at h
  · exact absurd h (by simp)
  · rename_i r rest heq
    split at h
    · exact absurd h (by simp)
    · rename_i hrel
      exact ⟨r, rest, heq, by omega, ((Except.ok.injEq ..).mp h).symm⟩

/-- One Reserve/Release call with positive quantity preserves the stock
invariant and the row ids, provided ids are unique. -/
lemma applyInvOp_inv (op : InvOp) (db : List InventoryRow)
    (hq : 0 < op.qty) (hids : (db.map (fun s => s.id)).Nodup)
    (hinv : InvInvariant db) :
    InvInvariant (applyInvOp db op) ∧
      (applyInvOp db op).map (fun s => s.id) = db.map (fun s => s.id) := by
  cases op with
  | reserve pid cid q now =>
    simp only [applyInvOp]
    cases h : reserveInventory pid cid q now db with
    | error e => exact ⟨hinv, rfl⟩
    | ok db' =>
      obtain ⟨r, rest, hf, hle, rfl⟩ := reserve_ok h
      have hr : r ∈ db := filter_head_mem hf
      have hqq : 0 < q := hq
      constructor
      · intro s' hs'
        obtain ⟨s, hs, rfl⟩ := List.mem_map.mp hs'
        by_cases hid : s.id = r.id
        · have hsr : s = r := List.inj_on_of_nodup_map hids hs hr hid
          subst hsr
          have := hinv s hs
          simp only [hid, beq_self_eq_true, if_true]
          obtain ⟨h1, h2⟩ := this
          constructor <;> omega
        · simp only [hid, beq_iff_eq, if_neg hid]
          exact hinv s hs
      · exact map_id_of_fixed _
          (fun s _ => by by_cases hid : s.id = r.id <;> simp [hid])
  | release pid cid q now =>
    simp only [applyInvOp]
    cases h : releaseInventory pid cid q now db with
    | error e => exact ⟨hinv, rfl⟩
    | ok db' =>
      obtain ⟨r, rest, hf, hle, rfl⟩ := release_ok h
      have hr : r ∈ db := filter_head_mem hf
      constructor
      · intro s' hs'
        obtain ⟨s, hs, rfl⟩ := List.mem_map.mp hs'
        by_cases hid : s.id = r.id
        · have hsr : s = r := List.inj_on_of_nodup_map hids hs hr hid
          subst hsr
          have := hinv s hs
          simp only [hid, beq_self_eq_true, if_true]
          obtain ⟨h1, h2⟩ := this
          constructor <;> omega
        · simp only [hid, beq_iff_eq, if_neg hid]
          exact hinv s hs
      · exact map_id_of_fixed _
          (fun s _ => by by_cases hid : s.id = r.id <;> simp [hid])

/-! ### Order total lemmas -/

/-- Appending an item of another order does not change an order's item
total. -/
lemma orderTotal_append_ne (oid : Nat) (items : List OrderItem)
    (it : OrderItem) (h : it.order_id ≠ oid) :
    orderTotal oid (items ++ [it]) = orderTotal oid items := by
  unfold orderTotal itemsFor
  rw [List.filter_append]
  simp [h]

/-- Removing only items of other orders does not change an order's item
total. -/
lemma orderTotal_filter_ne (oid : Nat) (items : List OrderItem)
    (p : OrderItem → Bool)
    (h : ∀ it ∈ items, p it = false → it.order_id ≠ oid) :
    orderTotal oid (items.filter p) = orderTotal oid items := by
  unfold orderTotal itemsFor
  rw [List.filter_filter]
  refine congrArg _ (congrArg _ (List.filter_congr (fun it hit => ?_)))
  cases hb : (it.order_id == oid) with
  | false => simp
  | true =>
    cases hp : p it with
    | true => simp
    | false => exact absurd (beq_iff_eq.mp hb) (h it hit hp)

/-- Recomputing one order's total restores the derived-total invariant,
provided the items of every other order are unchanged from a state in
which the invariant held. -/
lemma calc_TotalsOk_gen (oid now : Nat) (sOld s1 : OrdersDb)
    (horders : s1.orders = sOld.orders) (h : TotalsOk sOld)
    (hsame : ∀ i : Nat, i ≠ oid →
      orderTotal i s1.items = orderTotal i sOld.items) :
    TotalsOk (calculateOrderTotal oid now s1).2 := by
  intro o' ho'
  have ho2 : o' ∈ s1.orders.map (fun o =>
      if o.id == oid then
        { o with total_amount := orderTotal oid s1.items, updated_at := now }
      else o) := ho'
  obtain ⟨o, ho, rfl⟩ := List.mem_map.mp ho2
  have hitems : (calculateOrderTotal oid now s1).2.items = s1.items := rfl
  by_cases hid : o.id = oid
  · show _ = orderTotal _ (calculateOrderTotal oid now s1).2.items
    rw [hitems, if_pos (by simp [hid])]
    simp [hid]
  · show _ = orderTotal _ (calculateOrderTotal oid now s1).2.items
    rw [hitems, if_neg (by simp [hid])]
    rw [h o (horders ▸ ho), hsame o.id hid]

/-- A successful addOrderItem call returns the inserted item and the
recomputed state. -/
lemma add_ok {input : CreateOrderItemInput} {products : List Product}
    {now : Nat} {s : OrdersDb} {it : OrderItem} {s' : OrdersDb}
    (h : addOrderItem input products now s = .ok (it, s')) :
    it = newItem input s ∧
    s' = (calculateOrderTotal input.order_id now
      { s with items := s.items ++ [newItem input s],
               nextItemId := s.nextItemId + 1 }).2 := by
  unfold addOrderItem at h
  split at h
  · exact absurd h (by simp)
  · split at h
    · exact absurd h (by simp)
    · have := (Except.ok.injEq ..).mp h
      exact ⟨((Prod.mk.injEq ..).mp this).1.symm,
             ((Prod.mk.injEq ..).mp this).2.symm⟩

/-- A successful removeOrderItem call: some item matched the id, and the
result is the recomputation of that item's order over the filtered
table. -/
lemma remove_ok {itemId now : Nat} {s s' : OrdersDb}
    (h : removeOrderItem itemId now s = .ok s') :
    ∃ m rest, s.items.filter (fun it => it.id == itemId) = m :: rest ∧
      s' = (calculateOrderTotal m.order_id now
        { s with items := s.items.filter (fun x => !(x.id == itemId)) }).2 := by
  unfold removeOrderItem at h
  split at h
  · exact absurd h (by simp)
  · rename_i m rest heq
    exact ⟨m, rest, heq, ((Except.ok.injEq ..).mp h).symm⟩

/-- Every item-add, item-remove, or recompute call preserves the
derived-total invariant. -/
lemma TotalsOk_applyOrderOp (products : List Product) (op : OrderOp)
    (s : OrdersDb) (hids : ItemIdsOk s) (h : TotalsOk s) :
    TotalsOk (applyOrderOp products s op) := by
  cases op with
  | add input now =>
    simp only [applyOrderOp]
    cases ha : addOrderItem input products now s with
    | error e => exact h
    | ok p =>
      obtain ⟨it, s'⟩ := p
      obtain ⟨-, rfl⟩ := add_ok ha
      refine calc_TotalsOk_gen input.order_id now s _ rfl h ?_
      intro i hi
      exact orderTotal_append_ne i s.items (newItem input s)
        (by simpa [newItem] using hi.symm)
  | remove itemId now =>
    simp only [applyOrderOp]
    cases hr : removeOrderItem itemId now s with
    | error e => exact h
    | ok s' =>
      obtain ⟨m, rest, hm, rfl⟩ := remove_ok hr
      refine calc_TotalsOk_gen m.order_id now s _ rfl h ?_
      intro i hi
      refine orderTotal_filter_ne i s.items _ (fun it hit hp => ?_)
      have hitid : it.id = itemId := by simpa using hp
      have hmmem : m ∈ s.items := by
        have : m ∈ s.items.filter (fun it => it.id == itemId) := by
          rw [hm]; simp
        exact (List.mem_filter.mp this).1
      have hmid : m.id = itemId := by
        have : m ∈ s.items.filter (fun it => it.id == itemId) := by
          rw [hm]; simp
        simpa using (List.mem_filter.mp this).2
      have : it = m :=
        List.inj_on_of_nodup_map hids.1 hit hmmem (by rw [hitid, hmid])
      rw [this]
      exact hi.symm
  | recompute oid now =>
    exact calc_TotalsOk_gen oid now s s rfl h (fun _ _ => rfl)

/-- Every item-add, item-remove, or recompute call preserves the serial
well-formedness of item ids. -/
lemma ItemIdsOk_applyOrderOp (products : List Product) (op : OrderOp)
    (s : OrdersDb) (hids : ItemIdsOk s) :
    ItemIdsOk (applyOrderOp products s op) := by
  cases op with
  | add input now =>
    simp only [applyOrderOp]
    cases ha : addOrderItem input products now s with
    | error e => exact hids
    | ok p =>
      obtain ⟨it, s'⟩ := p
      obtain ⟨-, rfl⟩ := add_ok ha
      constructor
      · show ((s.items ++ [newItem input s]).map (fun it => it.id)).Nodup
        rw [List.map_append, List.nodup_append]
        refine ⟨hids.1, by simp, ?_⟩
        intro a ha2 hb
        simp only [List.map_cons, List.map_nil, List.mem_cons,
          List.not_mem_nil, or_false] at hb
        obtain ⟨x, hx, rfl⟩ := List.mem_map.mp ha2
        have := hids.2 x hx
        simp [newItem] at hb
        omega
      · show ∀ it ∈ s.items ++ [newItem input s], it.id < s.nextItemId + 1
        intro it hit
        rcases List.mem_append.mp hit with hold | hnew
        · exact Nat.lt_succ_of_lt (hids.2 it hold)
        · have : it = newItem input s := by simpa using hnew
          rw [this]
          exact Nat.lt_succ_self _
  | remove itemId now =>
    simp only [applyOrderOp]
    cases hr : removeOrderItem itemId now s with
    | error e => exact hids
    | ok s' =>
      obtain ⟨m, rest, hm, rfl⟩ := remove_ok hr
      constructor
      · show ((s.items.filter _).map (fun it => it.id)).Nodup
        exact ((List.filter_sublist _).map _).nodup hids.1
      · show ∀ it ∈ s.items.filter _, it.id < s.nextItemId
        intro it hit
        exact hids.2 it (List.mem_filter.mp hit).1
  | recompute oid now =>
    exact hids

/-! ### Claim theorems -/

/-- C1: For every order, after any sequence of addOrderItem,
removeOrderItem, and calculateOrderTotal operations (from a state whose
item ids are serial-unique and whose totals already satisfy the
invariant), the order's total_amount equals the sum of total_price over
all of its OrderItem rows, and an order with zero items has
total_amount = 0. -/
theorem order_totals_invariant (products : List Product)
    (ops : List OrderOp) (s : OrdersDb)
    (hids : ItemIdsOk s) (h : TotalsOk s) :
    TotalsOk (runOrderOps products ops s) ∧
    ∀ o ∈ (runOrderOps products ops s).orders,
      getOrderItems o.id (runOrderOps products ops s) = [] →
      o.total_amount = 0 := by
  have main : ∀ t : OrdersDb, ItemIdsOk t → TotalsOk t →
      TotalsOk (runOrderOps products ops t) ∧
      ItemIdsOk (runOrderOps products ops t) := by
    induction ops with
    | nil => exact fun t h1 h2 => ⟨h2, h1⟩
    | cons op ops ih =>
      intro t h1 h2
      exact ih (applyOrderOp products t op)
        (ItemIdsOk_applyOrderOp products op t h1)
        (TotalsOk_applyOrderOp products op t h1 h2)
  obtain ⟨htot, -⟩ := main s hids h
  refine ⟨htot, ?_⟩
  intro o ho hempty
  rw [htot o ho]
  unfold orderTotal
  unfold getOrderItems at hempty
  rw [hempty]
  rfl

/-- Witness for C1: a concrete state with one empty order satisfies both
hypotheses, and the invariant holds after running an add, a remove and a
recompute. -/
theorem order_totals_invariant_witness :
    ItemIdsOk ⟨[⟨5, 7, 0, 0⟩], [], 1⟩ ∧
    TotalsOk ⟨[⟨5, 7, 0, 0⟩], [], 1⟩ ∧
    (TotalsOk (runOrderOps [⟨3⟩]
        [.add ⟨5, 3, 2, 4⟩ 1, .remove 1 2, .recompute 5 3]
        ⟨[⟨5, 7, 0, 0⟩], [], 1⟩) ∧
     ∀ o ∈ (runOrderOps [⟨3⟩]
        [.add ⟨5, 3, 2, 4⟩ 1, .remove 1 2, .recompute 5 3]
        ⟨[⟨5, 7, 0, 0⟩], [], 1⟩).orders,
      getOrderItems o.id (runOrderOps [⟨3⟩]
        [.add ⟨5, 3, 2, 4⟩ 1, .remove 1 2, .recompute 5 3]
        ⟨[⟨5, 7, 0, 0⟩], [], 1⟩) = [] → o.total_amount = 0) :=
  ⟨by decide, by decide,
   order_totals_invariant [⟨3⟩]
     [.add ⟨5, 3, 2, 4⟩ 1, .remove 1 2, .recompute 5 3]
     ⟨[⟨5, 7, 0, 0⟩], [], 1⟩ (by decide) (by decide)⟩

/-- C2: For every inventory table with serial-unique row ids satisfying
`0 ≤ reserved_quantity ≤ quantity`, after any sequence of Reserve and
Release calls with quantity > 0 (calls that throw leave the table
unchanged), the invariant `0 ≤ reserved_quantity ≤ quantity` still holds
for every row. -/
theorem inventory_invariant (ops : List InvOp) (db : List InventoryRow)
    (hids : (db.map (fun s => s.id)).Nodup)
    (hq : ∀ op ∈ ops, 0 < op.qty)
    (hinv : InvInvariant db) :
    InvInvariant (runInvOps ops db) := by
  induction ops generalizing db with
  | nil => exact hinv
  | cons op ops ih =>
    have h1 := applyInvOp_inv op db (hq op (by simp)) hids hinv
    exact ih (applyInvOp db op) (h1.2 ▸ hids)
      (fun o ho => hq o (by simp [ho])) h1.1

/-- Witness for C2: a fresh row (quantity 100, reserved 0) keeps the
invariant after Reserve(20) followed by Release(10). -/
theorem inventory_invariant_witness :
    ([(⟨1, 7, 3, 100, 0, 0⟩ : InventoryRow)].map (fun s => s.id)).Nodup ∧
    InvInvariant [⟨1, 7, 3, 100, 0, 0⟩] ∧
    InvInvariant (runInvOps [.reserve 3 7 20 1, .release 3 7 10 2]
      [⟨1, 7, 3, 100, 0, 0⟩]) :=
  ⟨by decide, by decide,
   inventory_invariant [.reserve 3 7 20 1, .release 3 7 10 2]
     [⟨1, 7, 3, 100, 0, 0⟩] (by decide) (by decide) (by decide)⟩

/-- C3: For every requested quantity q > 0, reserveInventory fails with
the not-found error exactly when no ledger row matches the
(productId, clientId) pair; given a first matching row it fails with the
insufficient-inventory error exactly when
`quantity - reserved_quantity < q`, and otherwise succeeds, incrementing
the matched row's reserved_quantity by q while leaving every row's
quantity unchanged. -/
theorem reserveInventory_spec (pid cid : Nat) (q : Int) (now : Nat)
    (db : List InventoryRow) (hq : 0 < q) :
    (reserveInventory pid cid q now db = .error .notFound ↔
      db.filter (invMatch pid cid) = []) ∧
    (∀ r rest, db.filter (invMatch pid cid) = r :: rest →
      (reserveInventory pid cid q now db = .error .insufficient ↔
        r.quantity - r.reserved_quantity < q) ∧
      (q ≤ r.quantity - r.reserved_quantity →
        ∃ db', reserveInventory pid cid q now db = .ok db' ∧
          db'.length = db.length ∧
          ∀ p ∈ db.zip db',
            p.2.quantity = p.1.quantity ∧
            p.2.id = p.1.id ∧
            (p.1.id = r.id →
              p.2.reserved_quantity = r.reserved_quantity + q) ∧
            (p.1.id ≠ r.id → p.2 = p.1))) := by
  unfold reserveInventory
  cases hf : db.filter (invMatch pid cid) with
  | nil =>
    simp
  | cons r rest =>
    dsimp only
    refine ⟨by split <;> simp, ?_⟩
    rintro r' rest' hr'
    cases hr'
    by_cases hins : r.quantity - r.reserved_quantity < q
    · refine ⟨by simp [hins], fun hle => absurd hins (by omega)⟩
    · refine ⟨by simp [hins], fun _ => ?_⟩
      refine ⟨db.map (fun s =>
          if s.id == r.id then
            { s with reserved_quantity := r.reserved_quantity + q,
                     last_updated := now }
          else s), by simp [hins], by simp, ?_⟩
      intro p hp
      rw [zip_self_map] at hp
      obtain ⟨s, hs, rfl⟩ := List.mem_map.mp hp
      by_cases hid : s.id = r.id
      · simp [hid]
      · simp [hid]

/-- Witness for C3: with q = 20 > 0 on a one-row table that matches the
pair, the not-found characterisation holds. -/
theorem reserveInventory_spec_witness :
    (0 : Int) < 20 ∧
    (reserveInventory 3 7 20 1 [⟨1, 7, 3, 100, 0, 0⟩] = .error .notFound ↔
      [(⟨1, 7, 3, 100, 0, 0⟩ : InventoryRow)].filter (invMatch 3 7) = []) :=
  ⟨by decide,
   (reserveInventory_spec 3 7 20 1 [⟨1, 7, 3, 100, 0, 0⟩] (by decide)).1⟩

/-- C4: For every requested quantity q > 0 and first matching ledger
row, releaseInventory fails with the cannot-release error exactly when
q exceeds reserved_quantity, and on success decrements both quantity and
reserved_quantity of the matched row by q; concretely, on a fresh row
with quantity = 100, reserved = 0, Reserve(20) then Release(10) leaves
quantity = 90 and reserved = 10. -/
theorem releaseInventory_spec (pid cid : Nat) (q : Int) (now : Nat)
    (db : List InventoryRow) (hq : 0 < q) :
    (∀ r rest, db.filter (invMatch pid cid) = r :: rest →
      (releaseInventory pid cid q now db = .error .cannotRelease ↔
        r.reserved_quantity < q) ∧
      (q ≤ r.reserved_quantity →
        ∃ db', releaseInventory pid cid q now db = .ok db' ∧
          db'.length = db.length ∧
          ∀ p ∈ db.zip db',
            p.2.id = p.1.id ∧
            (p.1.id = r.id →
              p.2.quantity = r.quantity - q ∧
              p.2.reserved_quantity = r.reserved_quantity - q) ∧
            (p.1.id ≠ r.id → p.2 = p.1))) ∧
    (∃ db1 db2,
      reserveInventory 3 7 20 1
        [⟨1, 7, 3, 100, 0, 0⟩] = .ok db1 ∧
      releaseInventory 3 7 10 2 db1 = .ok db2 ∧
      db2.map (fun r => (r.quantity, r.reserved_quantity)) = [(90, 10)]) := by
  constructor
  · intro r rest hf
    rw [releaseInventory, hf]
    dsimp only
    by_cases hrel : r.reserved_quantity < q
    · refine ⟨by simp [hrel], fun hle => absurd hrel (by omega)⟩
    · refine ⟨by simp [hrel], fun _ => ?_⟩
      refine ⟨db.map (fun s =>
          if s.id == r.id then
            { s with quantity := r.quantity - q,
                     reserved_quantity := r.reserved_quantity - q,
                     last_updated := now }
          else s), by simp [hrel], by simp, ?_⟩
      intro p hp
      rw [zip_self_map] at hp
      obtain ⟨s, hs, rfl⟩ := List.mem_map.mp hp
      by_cases hid : s.id = r.id
      · simp [hid]
      · simp [hid]
  · exact ⟨[⟨1, 7, 3, 100, 20, 1⟩], [⟨1, 7, 3, 90, 10, 2⟩],
      by decide, by decide, by decide⟩

/-- Witness for C4: with q = 10 > 0 on the table after Reserve(20), the
cannot-release characterisation for the matching row evaluates to a
false condition (10 is not more than the 20 reserved). -/
theorem releaseInventory_spec_witness :
    (0 : Int) < 10 ∧
    (releaseInventory 3 7 10 2 [⟨1, 7, 3, 100, 20, 1⟩] =
        .error .cannotRelease ↔ (20 : Int) < 10) :=
  ⟨by decide,
   ((releaseInventory_spec 3 7 10 2 [⟨1, 7, 3, 100, 20, 1⟩]
      (by decide)).1 ⟨1, 7, 3, 100, 20, 1⟩ [] (by decide)).1⟩

/-- C5 (code bug): a row of client 7 with quantity 15 and
reserved_quantity 10 has available stock 5 ≤ threshold 10, yet
getLowStockItems returns the empty list for that client and threshold
(it filters on the quantity column alone), while the sibling
getLowStockItemsCount, which filters on quantity minus
reserved_quantity, counts the same row; the omitted threshold defaults
to 10. -/
theorem getLowStockItems_ignores_reserved :
    (∀ r : InventoryRow, r ∈ [(⟨1, 7, 3, 15, 10, 0⟩ : InventoryRow)] →
      r.client_id = 7 ∧ r.quantity - r.reserved_quantity ≤ 10) ∧
    getLowStockItems 7 10 [⟨1, 7, 3, 15, 10, 0⟩] = [] ∧
    getLowStockItemsCount 7 10 [⟨1, 7, 3, 15, 10, 0⟩] = 1 ∧
    getLowStockItemsRoute 7 none [⟨1, 7, 3, 15, 10, 0⟩] = [] :=
  ⟨by decide, by decide, by decide, by decide⟩

/-- C6: calculateOrderTotal is idempotent: invoking it twice in a row
with no intervening item mutation returns the same total both times,
leaves the OrderItem rows identical, and leaves every order's id,
client_id and total_amount identical (only updated_at is refreshed). -/
theorem calculateOrderTotal_idempotent (orderId t1 t2 : Nat)
    (s : OrdersDb) :
    (calculateOrderTotal orderId t2 (calculateOrderTotal orderId t1 s).2).1 =
      (calculateOrderTotal orderId t1 s).1 ∧
    (calculateOrderTotal orderId t2
        (calculateOrderTotal orderId t1 s).2).2.items =
      (calculateOrderTotal orderId t1 s).2.items ∧
    (calculateOrderTotal orderId t2
        (calculateOrderTotal orderId t1 s).2).2.orders.map Order.data =
      (calculateOrderTotal orderId t1 s).2.orders.map Order.data := by
  unfold calculateOrderTotal
  dsimp only
  refine ⟨rfl, rfl, ?_⟩
  refine map_id_of_fixed _ ?_
  intro o ho
  obtain ⟨o0, -, rfl⟩ := List.mem_map.mp ho
  by_cases hid : o0.id = orderId
  · simp [hid, Order.data]
  · simp [hid, Order.data]

/-- C7: deleteOrder fails with the not-found error exactly when no order
has the id, and on success removes the order and all of its OrderItem
rows, so that afterwards getOrderById fails and getOrderItems returns
the empty list. -/
theorem deleteOrder_spec (orderId : Nat) (s : OrdersDb) :
    (deleteOrder orderId s = .error .orderNotFound ↔
      ∀ o ∈ s.orders, o.id ≠ orderId) ∧
    (∀ s', deleteOrder orderId s = .ok s' →
      getOrderById orderId s' = .error .orderNotFound ∧
      getOrderItems orderId s' = []) := by
  constructor
  · by_cases h : (s.orders.filter fun o => o.id == orderId).isEmpty <;>
      simp_all [deleteOrder, List.isEmpty_iff, List.filter_eq_nil_iff]
  · intro s' h
    unfold deleteOrder at h
    split at h
    · exact absurd h (by simp)
    · obtain rfl : _ = s' := (Except.ok.injEq ..).mp h
      constructor
      · unfold getOrderById
        rw [List.filter_eq_nil_iff.mpr (fun o ho => ?_)]
        have := (List.mem_filter.mp ho).2
        simp_all
      · unfold getOrderItems itemsFor
        refine List.filter_eq_nil_iff.mpr (fun it hit => ?_)
        have := (List.mem_filter.mp hit).2
        simp_all

/-- Witness for C7: deleting order 1 from a state holding that order and
one of its items empties both lookups. -/
theorem deleteOrder_spec_witness :
    getOrderById 1 ⟨[], [], 3⟩ = .error .orderNotFound ∧
    getOrderItems 1 ⟨[], [], 3⟩ = [] :=
  (deleteOrder_spec 1 ⟨[⟨1, 7, 0, 0⟩], [⟨2, 1, 3, 1, 5, 5⟩], 3⟩).2
    ⟨[], [], 3⟩ (by decide)

/-- C8: createInventory fails with the not-found error exactly when the
clientId does not resolve to an existing user with role client or the
productId does not resolve to an existing product, and on success the
created row has reserved_quantity = 0. -/
theorem createInventory_spec (input : CreateInventoryInput)
    (users : List User) (products : List Product) (nextId now : Nat)
    (db : List InventoryRow) :
    (createInventory input users products nextId now db =
        .error .notFound ↔
      (∀ u ∈ users, ¬(u.id = input.client_id ∧ u.role = Role.client)) ∨
      (∀ p ∈ products, p.id ≠ input.product_id)) ∧
    (∀ row db',
      createInventory input users products nextId now db = .ok (row, db') →
      row.reserved_quantity = 0) := by
  constructor
  · by_cases h1 : (users.filter fun u =>
        u.id == input.client_id && u.role == Role.client).isEmpty <;>
    by_cases h2 : (products.filter fun p =>
        p.id == input.product_id).isEmpty <;>
      simp_all [createInventory, List.isEmpty_iff, List.filter_eq_nil_iff,
        not_and]
  · intro row db' h
    unfold createInventory at h
    split at h
    · exact absurd h (by simp)
    · split at h
      · exact absurd h (by simp)
      · obtain ⟨rfl, rfl⟩ : _ ∧ _ := by
          have := (Except.ok.injEq ..).mp h
          exact ⟨((Prod.mk.injEq ..).mp this).1.symm,
                 ((Prod.mk.injEq ..).mp this).2.symm⟩
        rfl

/-- Witness for C8: with a matching client and product the not-found
characterisation holds at a concrete input. -/
theorem createInventory_spec_witness :
    createInventory ⟨7, 3, 50⟩ [⟨7, .client⟩] [⟨3⟩] 1 0 [] =
        .error .notFound ↔
      (∀ u ∈ [(⟨7, Role.client⟩ : User)],
        ¬(u.id = 7 ∧ u.role = Role.client)) ∨
      (∀ p ∈ [(⟨3⟩ : Product)], p.id ≠ 3) :=
  (createInventory_spec ⟨7, 3, 50⟩ [⟨7, .client⟩] [⟨3⟩] 1 0 []).1

/-- C9: reserveInventory does not validate that the requested quantity
is positive: Reserve(-5) on an existing row with quantity 100 and
reserved 0 succeeds and leaves reserved_quantity = -5, violating the
`0 ≤ reserved_quantity` invariant. -/
theorem reserveInventory_negative_quantity :
    reserveInventory 3 7 (-5) 1 [⟨1, 7, 3, 100, 0, 0⟩] =
      .ok [⟨1, 7, 3, 100, -5, 1⟩] ∧
    ¬ InvInvariant [⟨1, 7, 3, 100, -5, 1⟩] :=
  ⟨by decide, by decide⟩

/-- C10: calculateOrderTotal does not check that the order exists: when
no order row and no OrderItem row carries the orderId, it returns 0 and
leaves the state unchanged. -/
theorem calculateOrderTotal_missing_order (orderId now : Nat)
    (s : OrdersDb)
    (hord : ∀ o ∈ s.orders, o.id ≠ orderId)
    (hitems : ∀ it ∈ s.items, it.order_id ≠ orderId) :
    calculateOrderTotal orderId now s = (0, s) := by
  have ht : orderTotal orderId s.items = 0 := by
    unfold orderTotal itemsFor
    rw [List.filter_eq_nil_iff.mpr (fun it hit => by
      simpa using hitems it hit)]
    rfl
  have hmap : s.orders.map (fun o =>
      if o.id == orderId then
        { o with total_amount := (0 : Rat), updated_at := now }
      else o) = s.orders := by
    conv_rhs => rw [← List.map_id s.orders]
    refine List.map_congr_left ?_
    intro o ho
    simp [hord o ho]
  unfold calculateOrderTotal
  dsimp only
  simp only [ht, hmap]

/-- Witness for C10: recomputing order 9 on a state that only holds
order 5 and no items returns 0 and changes nothing. -/
theorem calculateOrderTotal_missing_order_witness :
    calculateOrderTotal 9 4 ⟨[⟨5, 7, 0, 0⟩], [], 1⟩ =
      (0, ⟨[⟨5, 7, 0, 0⟩], [], 1⟩) :=
  calculateOrderTotal_missing_order 9 4 ⟨[⟨5, 7, 0, 0⟩], [], 1⟩
    (by decide) (by decide)

end LogisticsCore
